import Mathlib

/-!
Shallow embedding of the library-renewal automation script (app.py).

Pure logic (loan-count extraction, due-timestamp parsing, overdue
classification) is translated directly from the source.  Browser
interaction (frame search, retry-click, the login / renewal / status
flows) is modelled as explicit state and event traces parameterised by
an environment describing which elements exist and which browser
operations succeed.  Timestamps are encoded as natural numbers whose
order agrees with chronological order of the parsed components.
-/

/-! ### Loan-count extraction (renew_loans, lines 295-297)

`num_txt = prestamos_dd.text.strip()`
`m = re.search(r"\d+", num_txt)`
`num_loans = int(m.group(0)) if m else (0 if num_txt == "0" else 1)`
-/

/-- The characters of the first maximal run of digits of `s`
(the match of `re.search` for a digit run), if any. -/
def firstDigitRun (s : String) : Option (List Char) :=
  match s.data.dropWhile (fun c => !c.isDigit) with
  | [] => none
  | c :: cs => some ((c :: cs).takeWhile Char.isDigit)

/-- Decimal value of a list of digit characters (Python `int` on the match). -/
def digitsToNat (l : List Char) : Nat :=
  l.foldl (fun a c => 10 * a + (c.toNat - 48)) 0

/-- The loan-count extractor of `renew_loans` (lines 296-297), on the
already-stripped link text. -/
def parseLoanCount (s : String) : Nat :=
  match firstDigitRun s with
  | some r => digitsToNat r
  | none => if s = "0" then 0 else 1

/-- Python `str.strip()`: drop whitespace from both ends. -/
def pyStrip (s : String) : String :=
  ⟨((s.data.dropWhile Char.isWhitespace).reverse.dropWhile
      Char.isWhitespace).reverse⟩

/-! ### Due-timestamp parsing and classification (check_loan_status, lines 397-399)

`datetime.strptime(due_txt, "%d/%m/%y %H:%M")` followed by
`estado = "⚠️ OVERDUE" if due_date < now else "✅ On time"`.
-/

/-- Greedily read one or two leading digit characters (the `\d{1,2}`
behaviour of each numeric directive of `strptime`). -/
def grabDigits2 (cs : List Char) : Option (Nat × List Char) :=
  match cs with
  | [] => none
  | c1 :: rest =>
    if c1.isDigit then
      match rest with
      | c2 :: rest2 =>
        if c2.isDigit then some ((c1.toNat - 48) * 10 + (c2.toNat - 48), rest2)
        else some (c1.toNat - 48, rest)
      | [] => some (c1.toNat - 48, [])
    else none

/-- Consume one expected literal character of the format string. -/
def expectChar (c : Char) (cs : List Char) : Option (List Char) :=
  match cs with
  | c2 :: rest => if c2 = c then some rest else none
  | [] => none

def isLeap (y : Nat) : Bool :=
  (y % 4 == 0 && y % 100 != 0) || y % 400 == 0

def daysInMonth (y m : Nat) : Nat :=
  if m = 2 then (if isLeap y then 29 else 28)
  else if m = 4 ∨ m = 6 ∨ m = 9 ∨ m = 11 then 30
  else 31

/-- The `%y` two-digit-year pivot used by `strptime`. -/
def yyToYear (yy : Nat) : Nat :=
  if yy ≤ 68 then 2000 + yy else 1900 + yy

/-- `datetime.strptime(s, "%d/%m/%y %H:%M")`: returns
`(year, month, day, hour, minute)` or `none` (a `ValueError`). -/
def strptimeDmyHm (s : String) : Option (Nat × Nat × Nat × Nat × Nat) := do
  let cs := s.data
  let (d, cs) ← grabDigits2 cs
  let cs ← expectChar '/' cs
  let (mo, cs) ← grabDigits2 cs
  let cs ← expectChar '/' cs
  let (yy, cs) ← grabDigits2 cs
  let cs ← expectChar ' ' cs
  let (h, cs) ← grabDigits2 cs
  let cs ← expectChar ':' cs
  let (mi, cs) ← grabDigits2 cs
  if cs = [] ∧ 1 ≤ mo ∧ mo ≤ 12 ∧ 1 ≤ d ∧ d ≤ daysInMonth (yyToYear yy) mo
      ∧ h ≤ 23 ∧ mi ≤ 59 then
    some (yyToYear yy, mo, d, h, mi)
  else none

/-- Order-preserving encoding of a parsed timestamp as a natural number:
`encodeDT` is strictly monotone in the lexicographic component order,
which is chronological order, so `<` on encodings is `datetime.__lt__`. -/
def encodeDT (y mo d h mi : Nat) : Nat :=
  (((y * 12 + (mo - 1)) * 31 + (d - 1)) * 24 + h) * 60 + mi

/-- Parse a due-date cell and encode it as an instant (`none` models the
`ValueError` branch of `check_loan_status`). -/
def parseDue (s : String) : Option Nat :=
  match strptimeDmyHm s with
  | some (y, mo, d, h, mi) => some (encodeDT y mo d h mi)
  | none => none

/-- Line 399: `estado = "⚠️ OVERDUE" if due_date < now else "✅ On time"`. -/
def classifyLoan (dueDate now : Nat) : String :=
  if dueDate < now then "⚠️ OVERDUE" else "✅ On time"

/-! ### find_in_any_frame (lines 115-150)

The page is modelled relative to one fixed locator: `topHas` says the
locator matches in the top document within the bounded wait; each direct
frame records whether `switch_to.frame` succeeds, whether the locator
matches inside it, and its one-level-nested frames.  The driver context
is `Ctx`.
-/

/-- A locator: strategy tag plus selector string (`(By.X, "sel")`). -/
structure Locator where
  strategy : String
  selector : String
deriving DecidableEq

/-- The active navigation context of the driver. -/
inductive Ctx
  | top
  | frame (i : Nat)
  | nested (i : Nat) (j : Nat)
deriving DecidableEq

structure SubFrame where
  switchOk : Bool
  hasEl : Bool
deriving DecidableEq

structure PageFrame where
  switchOk : Bool
  hasEl : Bool
  nested : List SubFrame
deriving DecidableEq

structure Page where
  topHas : Bool
  frames : List PageFrame
deriving DecidableEq

/-- The message of the `TimeoutException` raised at line 150. -/
def locMessage (l : Locator) : String :=
  "Element not found in any frame for locator: (" ++ l.strategy ++ ", "
    ++ l.selector ++ ")"

inductive FindRes
  | found (c : Ctx)
  | notFound (msg : String)
deriving DecidableEq

structure FindOutcome where
  res : FindRes
  finalCtx : Ctx
  phaseWait : Nat
deriving DecidableEq

/-- Lines 139-147: inside frame `i`, scan its nested frames in order;
a nested frame is usable when all three context switches succeed. -/
def nestedSearch (i : Nat) : Nat → List SubFrame → Option Ctx
  | _, [] => none
  | j, s :: rest =>
    if s.switchOk && s.hasEl then some (.nested i j)
    else nestedSearch i (j + 1) rest

/-- Lines 126-147: scan the direct frames in order; for each switchable
frame, first the frame itself, then (on timeout) its nested frames. -/
def framesSearch : Nat → List PageFrame → Option Ctx
  | _, [] => none
  | i, f :: rest =>
    if f.switchOk then
      if f.hasEl then some (.frame i)
      else
        match nestedSearch i 0 f.nested with
        | some c => some c
        | none => framesSearch (i + 1) rest
    else framesSearch (i + 1) rest

/-- `find_in_any_frame(driver, locator, timeout)` (lines 115-150):
top document first, then the interleaved frame scan; every phase waits
`min(5, timeout)`; on total failure the context is reset to the top
document and a `TimeoutException` naming the locator is raised. -/
def findInAnyFrame (p : Page) (l : Locator) (timeout : Nat) : FindOutcome :=
  if p.topHas then ⟨.found .top, .top, min 5 timeout⟩
  else
    match framesSearch 0 p.frames with
    | some c => ⟨.found c, c, min 5 timeout⟩
    | none => ⟨.notFound (locMessage l), .top, min 5 timeout⟩

/-! Declarative search orders, for comparison with the traversal above. -/

/-- The contexts of the nested frames of frame `i`, in document order. -/
def subCtxs (i : Nat) : Nat → List SubFrame → List Ctx
  | _, [] => []
  | j, _ :: rest => .nested i j :: subCtxs i (j + 1) rest

/-- The interleaved visiting order of the code: each direct frame
immediately followed by its own nested frames. -/
def frameCtxs : Nat → List PageFrame → List Ctx
  | _, [] => []
  | i, f :: rest => .frame i :: (subCtxs i 0 f.nested ++ frameCtxs (i + 1) rest)

def ctxOrder (p : Page) : List Ctx :=
  .top :: frameCtxs 0 p.frames

/-- Whether the fixed locator is actually reachable and present at a
given context (parent switches must succeed). -/
def ctxMatches (p : Page) : Ctx → Bool
  | .top => p.topHas
  | .frame i =>
    match p.frames.get? i with
    | some f => f.switchOk && f.hasEl
    | none => false
  | .nested i j =>
    match p.frames.get? i with
    | some f =>
      f.switchOk &&
        (match f.nested.get? j with
         | some s => s.switchOk && s.hasEl
         | none => false)
    | none => false

/-- First matching context in the interleaved order. -/
def firstMatchI (p : Page) : Option Ctx :=
  (ctxOrder p).find? (ctxMatches p)

/-- Phase (b) of the claimed order: every direct frame, no nesting. -/
def directPass : Nat → List PageFrame → Option Ctx
  | _, [] => none
  | i, f :: rest =>
    if f.switchOk && f.hasEl then some (.frame i) else directPass (i + 1) rest

/-- Phase (c) of the claimed order: the one-level-nested frames,
visited only after every direct frame. -/
def nestedPass : Nat → List PageFrame → Option Ctx
  | _, [] => none
  | i, f :: rest =>
    if f.switchOk then
      match nestedSearch i 0 f.nested with
      | some c => some c
      | none => nestedPass (i + 1) rest
    else nestedPass (i + 1) rest

/-- The search order as the claim states it: (a) top document, then
(b) each direct frame, then (c) the nested frames of those. -/
def firstMatchPhased (p : Page) : Option Ctx :=
  if p.topHas then some .top
  else
    match directPass 0 p.frames with
    | some c => some c
    | none => nestedPass 0 p.frames

/-- A page on which the interleaved order and the phased order disagree:
frame 0 lacks the element but its nested frame has it, while frame 1 has
it directly. -/
def cPage : Page :=
  ⟨false, [⟨true, false, [⟨true, true⟩]⟩, ⟨true, true, []⟩]⟩

def cLoc : Locator := ⟨"xpath", "//a[1]"⟩

/-! ### resilient_click_locator (lines 190-218)

Each loop iteration performs one fresh locate (`find_in_any_frame` or a
direct wait) followed by the click; the environment `env i` gives the
outcome of attempt `i`: success, or one of the two caught exception
types.  The trace records the number of fresh locates, the backoff
sleeps (in multiples of the fixed 0.5-second unit; `time.sleep(0.5 *
(i + 1))`), and the final outcome.
-/

inductive RetryExc
  | timeoutE
  | staleE
deriving DecidableEq

inductive AttemptRes
  | ok
  | fail (e : RetryExc)
deriving DecidableEq

inductive ClickOutcome
  | clicked
  | raised (e : RetryExc)
  | returnedFalse
deriving DecidableEq

structure ClickTrace where
  locateCalls : Nat
  backoffs : List Nat
  outcome : ClickOutcome
deriving DecidableEq

/-- The retry loop (lines 195-218) over the remaining attempt indices,
carrying `last_exc`, the locate count and the sleeps performed. -/
def clickLoop (env : Nat → AttemptRes) :
    List Nat → Option RetryExc → Nat → List Nat → ClickTrace
  | [], some e, locs, sl => ⟨locs, sl, .raised e⟩
  | [], none, locs, sl => ⟨locs, sl, .returnedFalse⟩
  | i :: rest, _, locs, sl =>
    match env i with
    | .ok => ⟨locs + 1, sl, .clicked⟩
    | .fail e => clickLoop env rest (some e) (locs + 1) (sl ++ [i + 1])

/-- `resilient_click_locator` with an explicit attempt budget
(`for i in range(attempts)`). -/
def resilient_click_locator (env : Nat → AttemptRes) (attempts : Nat) : ClickTrace :=
  clickLoop env (List.range attempts) none 0 []

/-! ### renew_loans (lines 282-372), as an event trace over an
environment: whether the loans-count link was found (and its raw text),
which renew-all candidates succeed, and whether the confirmation popup
appears. -/

inductive RenewEv
  | accountMenu
  | readLoansLink
  | logNoLoans
  | navigateLoans
  | searchRenewAll
  | clickedRenewAll
  | logNoRenovar
  | dialogWait
  | dialogConfirm
  | logNoPopup
  | dumpCall (tag : String)
deriving DecidableEq

structure RenewEnv where
  linkText : Option String
  renovarSucceeds : List Bool
  popup : Bool

/-- Lines 326-334: try the renew-all candidates in order; stop at the
first whose `resilient_click_locator` succeeds. -/
def renovarLoop : List Bool → (List RenewEv × Bool)
  | [] => ([], false)
  | true :: _ => ([.searchRenewAll], true)
  | false :: rest =>
    let r := renovarLoop rest
    (.searchRenewAll :: r.1, r.2)

/-- Lines 341-361: bounded wait for the confirmation dialog; confirm it
when present, log and continue when absent. -/
def dialogPhase (popup : Bool) : List RenewEv :=
  if popup then [.dialogWait, .dialogConfirm] else [.dialogWait, .logNoPopup]

/-- The renewal flow.  A missing loans link is a `TimeoutException`
caught at the flow boundary (line 363): the debug-dump routine is
invoked with tag `renew-timeout` and the flow returns. -/
def renew_loans (env : RenewEnv) : List RenewEv :=
  match env.linkText with
  | none => [.accountMenu, .readLoansLink, .dumpCall "renew-timeout"]
  | some txt =>
    if parseLoanCount (pyStrip txt) = 0 then
      [.accountMenu, .readLoansLink, .logNoLoans]
    else
      let r := renovarLoop env.renovarSucceeds
      [.accountMenu, .readLoansLink, .navigateLoans] ++ r.1 ++
        (if r.2 then .clickedRenewAll :: dialogPhase env.popup
         else [.logNoRenovar])

/-! ### _dump_debug (lines 221-233) and login (lines 239-279) -/

/-- `_dump_debug(driver, tag, enable=False)`: the files it writes
(timestamp component of the names omitted).  With `enable` false it
writes nothing. -/
def _dump_debug (tag : String) (enable : Bool) : List String :=
  if enable then ["debug_" ++ tag ++ ".png", "debug_" ++ tag ++ ".html"]
  else []

structure LoginEnv where
  miCuenta : Bool
  userField : Bool
  passField : Bool
  entryOk : Bool

structure LoginResult where
  dumpCalls : List (String × Bool)
  filesWritten : List String
  raised : Option String
deriving DecidableEq

/-- The login flow: `Mi cuenta` absent raises `TimeoutException`
(line 248); a missing credential field is a `TimeoutException` from
`find_in_any_frame`; any other failure during entry is a generic
exception.  Both handlers call `_dump_debug` with `enable` left at its
default `False` (lines 273, 277) and re-raise. -/
def login (env : LoginEnv) : LoginResult :=
  if env.miCuenta = false then
    ⟨[("login-timeout", false)], _dump_debug "login-timeout" false,
      some "TimeoutException"⟩
  else if env.userField = false then
    ⟨[("login-timeout", false)], _dump_debug "login-timeout" false,
      some "TimeoutException"⟩
  else if env.passField = false then
    ⟨[("login-timeout", false)], _dump_debug "login-timeout" false,
      some "TimeoutException"⟩
  else if env.entryOk = false then
    ⟨[("login-exception", false)], _dump_debug "login-exception" false,
      some "Exception"⟩
  else
    ⟨[], [], none⟩

/-! ### check_loan_status (lines 375-406)

Rows are lists of cell texts.  A row with no cells is a warning and a
skip (lines 390-392); otherwise `cells[0]` and `cells[2]` are read
before the inner `try`, so a row with one or two cells raises
`IndexError`, caught only by the flow-boundary handler (lines 404-406),
which calls the debug-dump routine and stops.  An unparseable date is a
`ValueError` caught per row (lines 401-402). -/

inductive StatusEv
  | noTable
  | warnNoCells (rowIdx : Nat)
  | parseError (rowIdx : Nat) (dueTxt : String)
  | statusLine (rowIdx : Nat) (title : String) (overdue : Bool)
  | flowException (tag : String)
deriving DecidableEq

/-- Process one row (loop body, lines 388-402): `Except` error is an
`IndexError` escaping to the flow boundary. -/
def rowEvents (now : Nat) (i : Nat) (cells : List String) :
    Except Unit (List StatusEv) :=
  match cells with
  | [] => .ok [.warnNoCells i]
  | c0 :: _ =>
    match cells.get? 2 with
    | none => .error ()
    | some c2 =>
      match parseDue (pyStrip c2) with
      | none => .ok [.parseError i (pyStrip c2)]
      | some d => .ok [.statusLine i (pyStrip c0) (decide (d < now))]

/-- The row loop (`for i, row in enumerate(rows, 1)`): an `IndexError`
abandons the remaining rows and lands in the boundary handler. -/
def statusRows (now : Nat) : Nat → List (List String) → List StatusEv
  | _, [] => []
  | i, cells :: rest =>
    match rowEvents now i cells with
    | .ok evs => evs ++ statusRows now (i + 1) rest
    | .error _ => [.flowException "status-exception"]

/-- `check_loan_status`: no rows at all is a log-and-return
(lines 381-383). -/
def check_loan_status (now : Nat) (rows : List (List String)) : List StatusEv :=
  if rows.isEmpty then [.noTable]
  else statusRows now 1 rows

/-! ## Theorems -/

theorem exists_digit_head (l : List Char) (h : l.any Char.isDigit = true) :
    ∃ c t, l.dropWhile (fun c => !c.isDigit) = c :: t ∧ c.isDigit = true := by
  induction l with
  | nil => simp at h
  | cons a l ih =>
    by_cases ha : a.isDigit
    · exact ⟨a, l, by simp [List.dropWhile_cons, ha], ha⟩
    · have h2 : l.any Char.isDigit = true := by
        simp [List.any_cons, ha] at h
        simpa using h
      obtain ⟨c, t, hd, hc⟩ := ih h2
      refine ⟨c, t, ?_, hc⟩
      simp [List.dropWhile_cons, ha, hd]

theorem no_digit_dropWhile (l : List Char) (h : ∀ c ∈ l, c.isDigit = false) :
    l.dropWhile (fun c => !c.isDigit) = [] := by
  induction l with
  | nil => rfl
  | cons a l ih =>
    have ha := h a (by simp)
    simp only [List.dropWhile_cons, ha, Bool.not_false, if_true]
    exact ih (fun c hc => h c (by simp [hc]))

theorem head_dropWhile_false (p : Char → Bool) (l : List Char) :
    ∀ c t, l.dropWhile p = c :: t → p c = false := by
  induction l with
  | nil => intro c t h; simp at h
  | cons a l ih =>
    intro c t h
    by_cases ha : p a
    · rw [List.dropWhile_cons, if_pos ha] at h
      exact ih c t h
    · rw [List.dropWhile_cons, if_neg ha] at h
      cases h
      simpa using ha

/-- C2: for every input string to the loan-count extractor, input `"0"`
yields zero; an input containing at least one digit yields the integer
formed by its first maximal run of digits; an input with no digits that
is not `"0"` yields 1. -/
theorem C2_loan_count_extractor :
    parseLoanCount "0" = 0 ∧
    (∀ s : String, s.data.any Char.isDigit = true →
      ∃ p r t : List Char, s.data = p ++ r ++ t ∧
        (∀ c ∈ p, c.isDigit = false) ∧ r ≠ [] ∧
        (∀ c ∈ r, c.isDigit = true) ∧
        (∀ c, t.head? = some c → c.isDigit = false) ∧
        parseLoanCount s = digitsToNat r) ∧
    (∀ s : String, s.data.any Char.isDigit = false → s ≠ "0" →
      parseLoanCount s = 1) := by
  refine ⟨by decide, ?_, ?_⟩
  · intro s h
    obtain ⟨c, t0, hd, hc⟩ := exists_digit_head s.data h
    refine ⟨s.data.takeWhile (fun c => !c.isDigit),
            (c :: t0).takeWhile Char.isDigit,
            (c :: t0).dropWhile Char.isDigit, ?_, ?_, ?_, ?_, ?_, ?_⟩
    · calc s.data
          = s.data.takeWhile (fun c => !c.isDigit)
              ++ s.data.dropWhile (fun c => !c.isDigit) :=
            (List.takeWhile_append_dropWhile _ _).symm
        _ = s.data.takeWhile (fun c => !c.isDigit) ++ (c :: t0) := by rw [hd]
        _ = s.data.takeWhile (fun c => !c.isDigit)
              ++ ((c :: t0).takeWhile Char.isDigit
                  ++ (c :: t0).dropWhile Char.isDigit) := by
            rw [List.takeWhile_append_dropWhile]
        _ = s.data.takeWhile (fun c => !c.isDigit)
              ++ (c :: t0).takeWhile Char.isDigit
              ++ (c :: t0).dropWhile Char.isDigit := by
            rw [List.append_assoc]
    · intro x hx
      have := List.mem_takeWhile_imp hx
      simpa using this
    · simp [List.takeWhile_cons, hc]
    · intro x hx
      exact List.mem_takeWhile_imp hx
    · intro x hx
      rcases he : (c :: t0).dropWhile Char.isDigit with _ | ⟨y, ys⟩
      · rw [he] at hx; simp at hx
      · rw [he] at hx
        simp at hx
        subst hx
        exact head_dropWhile_false Char.isDigit (c :: t0) y ys he
    · simp [parseLoanCount, firstDigitRun, hd]
  · intro s h h0
    have hd : s.data.dropWhile (fun c => !c.isDigit) = [] := by
      apply no_digit_dropWhile
      simpa using h
    simp [parseLoanCount, firstDigitRun, hd, h0]

theorem C2_loan_count_extractor_witness :
    parseLoanCount "sin datos" = 1 ∧
    (∃ p r t : List Char, "a12b".data = p ++ r ++ t ∧
      (∀ c ∈ p, c.isDigit = false) ∧ r ≠ [] ∧
      (∀ c ∈ r, c.isDigit = true) ∧
      (∀ c, t.head? = some c → c.isDigit = false) ∧
      parseLoanCount "a12b" = digitsToNat r) :=
  ⟨C2_loan_count_extractor.2.2 "sin datos" (by decide) (by decide),
   C2_loan_count_extractor.2.1 "a12b" (by decide)⟩

/-- C3: for every successfully parsed due timestamp and every current
instant, the loan is classified overdue iff the due timestamp is
strictly earlier than the instant, and on-time iff it is equal or
later. -/
theorem C3_overdue_iff_strictly_earlier (txt : String) (due now : Nat)
    (_hp : parseDue txt = some due) :
    (classifyLoan due now = "⚠️ OVERDUE" ↔ due < now) ∧
    (classifyLoan due now = "✅ On time" ↔ now ≤ due) := by
  have hne : ("✅ On time" : String) ≠ "⚠️ OVERDUE" := by decide
  unfold classifyLoan
  by_cases h : due < now
  · rw [if_pos h]
    constructor
    · exact iff_of_true rfl h
    · constructor
      · intro he
        exact absurd he.symm hne
      · intro hle
        omega
  · rw [if_neg h]
    constructor
    · constructor
      · intro he
        exact absurd he hne
      · intro hlt
        exact absurd hlt h
    · exact iff_of_true rfl (by omega)

theorem C3_overdue_iff_strictly_earlier_witness :
    (classifyLoan 1084752720 1084752721 = "⚠️ OVERDUE" ↔
        1084752720 < 1084752721) ∧
    (classifyLoan 1084752720 1084752721 = "✅ On time" ↔
        1084752721 ≤ 1084752720) :=
  C3_overdue_iff_strictly_earlier "01/01/25 12:00" 1084752720 1084752721
    (by decide)

theorem subCtxs_shape (i : Nat) (subs : List SubFrame) :
    ∀ (j : Nat) (c : Ctx), c ∈ subCtxs i j subs → ∃ j2, c = Ctx.nested i j2 := by
  induction subs with
  | nil => intro j c hc; simp [subCtxs] at hc
  | cons s rest ih =>
    intro j c hc
    simp only [subCtxs, List.mem_cons] at hc
    rcases hc with h | h
    · exact ⟨j, h⟩
    · exact ih (j + 1) c h

theorem nestedSearch_eq_find (p : Page) (i : Nat) (f : PageFrame)
    (hp : p.frames.get? i = some f) (hs : f.switchOk = true)
    (subs : List SubFrame) :
    ∀ (j : Nat), (∀ k, subs.get? k = f.nested.get? (j + k)) →
      nestedSearch i j subs = (subCtxs i j subs).find? (ctxMatches p) := by
  induction subs with
  | nil => intro j _; rfl
  | cons s rest ih =>
    intro j hk
    have h0 : f.nested.get? j = some s := by simpa using (hk 0).symm
    have hrec : ∀ k, rest.get? k = f.nested.get? (j + 1 + k) := by
      intro k
      have h1 := hk (k + 1)
      have hidx : j + (k + 1) = j + 1 + k := by omega
      rw [hidx] at h1
      simpa using h1
    have hp2 : p.frames[i]? = some f := by
      rw [← List.get?_eq_getElem?]; exact hp
    have h02 : f.nested[j]? = some s := by
      rw [← List.get?_eq_getElem?]; exact h0
    have hm : ctxMatches p (Ctx.nested i j) = (s.switchOk && s.hasEl) := by
      simp [ctxMatches, hp2, hs, h02]
    show nestedSearch i j (s :: rest) =
      List.find? (ctxMatches p) (Ctx.nested i j :: subCtxs i (j + 1) rest)
    rw [List.find?_cons, hm]
    cases hc : (s.switchOk && s.hasEl) with
    | true => simp [nestedSearch, hc]
    | false =>
      simp only [nestedSearch, hc, Bool.false_eq_true, if_false]
      exact ih (j + 1) hrec

theorem framesSearch_eq_find (p : Page) (fs : List PageFrame) :
    ∀ (i : Nat), (∀ k, fs.get? k = p.frames.get? (i + k)) →
      framesSearch i fs = (frameCtxs i fs).find? (ctxMatches p) := by
  induction fs with
  | nil => intro i _; rfl
  | cons f rest ih =>
    intro i hk
    have h0 : p.frames.get? i = some f := by simpa using (hk 0).symm
    have hrec : ∀ k, rest.get? k = p.frames.get? (i + 1 + k) := by
      intro k
      have h1 := hk (k + 1)
      have hidx : i + (k + 1) = i + 1 + k := by omega
      rw [hidx] at h1
      simpa using h1
    have h02 : p.frames[i]? = some f := by
      rw [← List.get?_eq_getElem?]; exact h0
    have hm : ctxMatches p (Ctx.frame i) = (f.switchOk && f.hasEl) := by
      simp [ctxMatches, h02]
    show framesSearch i (f :: rest) =
      List.find? (ctxMatches p)
        (Ctx.frame i :: (subCtxs i 0 f.nested ++ frameCtxs (i + 1) rest))
    rw [List.find?_cons, hm, List.find?_append]
    cases hsw : f.switchOk with
    | false =>
      have hsub : (subCtxs i 0 f.nested).find? (ctxMatches p) = none := by
        apply List.find?_eq_none.mpr
        intro c hc
        obtain ⟨j2, rfl⟩ := subCtxs_shape i f.nested 0 c hc
        simp [ctxMatches, h02, hsw]
      simp only [hsw, Bool.false_and, hsub, Option.none_or]
      simp only [framesSearch, hsw, Bool.false_eq_true, if_false]
      exact ih (i + 1) hrec
    | true =>
      cases hel : f.hasEl with
      | true =>
        simp [framesSearch, hsw, hel]
      | false =>
        have hnested :=
          nestedSearch_eq_find p i f h0 hsw f.nested 0 (fun k => by simp)
        simp only [hsw, hel, Bool.and_false]
        simp only [framesSearch, hsw, hel, Bool.false_eq_true, if_false,
          if_true]
        rw [← hnested]
        cases hns : nestedSearch i 0 f.nested with
        | some c => simp
        | none => simp [Option.none_or]; exact ih (i + 1) hrec

theorem find_matches_interleaved (p : Page) (l : Locator) (t : Nat) :
    (findInAnyFrame p l t).res =
      (match firstMatchI p with
       | some c => FindRes.found c
       | none => FindRes.notFound (locMessage l)) := by
  have hfs := framesSearch_eq_find p p.frames 0 (fun k => by simp)
  unfold firstMatchI ctxOrder
  cases ht : p.topHas with
  | true =>
    have hm : ctxMatches p Ctx.top = true := by simp [ctxMatches, ht]
    rw [List.find?_cons, hm]
    simp [findInAnyFrame, ht]
  | false =>
    have hm : ctxMatches p Ctx.top = false := by simp [ctxMatches, ht]
    rw [List.find?_cons, hm, ← hfs]
    cases hr : framesSearch 0 p.frames with
    | some c => simp [findInAnyFrame, ht, hr]
    | none => simp [findInAnyFrame, ht, hr]

/-- C4 (amended): the resilient element locator searches the top-level
document first, and then each direct embedded frame in order, searching
the one-level-nested frames of a direct frame immediately after it
(before the next direct frame), returning the first matching present
element in that interleaved order; the bounded wait of each phase is
`min 5 timeout ≤ 6` regardless of the total timeout; if all phases fail
it fails with a not-found condition whose message names the locator. -/
theorem C4_frame_search_order (p : Page) (l : Locator) (t : Nat) :
    ((findInAnyFrame p l t).res =
      (match firstMatchI p with
       | some c => FindRes.found c
       | none => FindRes.notFound (locMessage l))) ∧
    (findInAnyFrame p l t).phaseWait = min 5 t ∧
    (findInAnyFrame p l t).phaseWait ≤ 6 := by
  refine ⟨find_matches_interleaved p l t, ?_, ?_⟩ <;>
    [skip;
     refine le_trans (le_of_eq ?_) (le_trans (Nat.min_le_left 5 t) (by omega))] <;>
  · by_cases ht : p.topHas
    · simp [findInAnyFrame, ht]
    · cases hr : framesSearch 0 p.frames <;> simp [findInAnyFrame, ht, hr]

/-- C4 counterexample: the phased order of the claim (all direct frames
before any nested frame) predicts the match in frame 1, but the code
returns the element found in the nested frame of frame 0, because it
descends into the nested frames of frame 0 before visiting frame 1. -/
theorem C4_frame_search_order_counterexample :
    firstMatchPhased cPage = some (Ctx.frame 1) ∧
    (findInAnyFrame cPage cLoc 20).res = FindRes.found (Ctx.nested 0 0) ∧
    (findInAnyFrame cPage cLoc 20).res ≠ FindRes.found (Ctx.frame 1) := by
  decide

/-- C10: whenever the locator search fails across all phases and raises
its not-found condition, the active navigation context has been reset
to the top-level document first, so a caller catching the failure is
never left focused inside a frame. -/
theorem C10_reset_to_top_on_failure (p : Page) (l : Locator) (t : Nat)
    (msg : String)
    (h : (findInAnyFrame p l t).res = FindRes.notFound msg) :
    (findInAnyFrame p l t).finalCtx = Ctx.top := by
  by_cases ht : p.topHas
  · simp [findInAnyFrame, ht] at h
  · cases hr : framesSearch 0 p.frames with
    | some c => simp [findInAnyFrame, ht, hr] at h
    | none => simp [findInAnyFrame, ht, hr]

theorem C10_reset_to_top_on_failure_witness :
    (findInAnyFrame ⟨false, []⟩ ⟨"id", "bor_id"⟩ 20).finalCtx = Ctx.top :=
  C10_reset_to_top_on_failure ⟨false, []⟩ ⟨"id", "bor_id"⟩ 20
    (locMessage ⟨"id", "bor_id"⟩) rfl

/-- C5: on the default budget of 4 attempts, the click-by-locator makes
at most 4 attempts, performs one fresh locate per attempt (never reuses
a reference), sleeps a linearly increasing backoff of (attempt index) ×
(the fixed 0.5 s unit) after each failed attempt, and after exhausting
all attempts raises the last encountered exception. -/
theorem C5_click_retry_behaviour (env : Nat → AttemptRes) :
    (resilient_click_locator env 4).locateCalls ≤ 4 ∧
    (resilient_click_locator env 4).backoffs =
      List.map Nat.succ
        (List.range (resilient_click_locator env 4).backoffs.length) ∧
    ((resilient_click_locator env 4).outcome = ClickOutcome.clicked →
      (resilient_click_locator env 4).locateCalls =
        (resilient_click_locator env 4).backoffs.length + 1) ∧
    ((resilient_click_locator env 4).outcome ≠ ClickOutcome.clicked →
      (resilient_click_locator env 4).locateCalls =
        (resilient_click_locator env 4).backoffs.length) ∧
    (∀ e : RetryExc, (∀ i, i < 4 → env i ≠ AttemptRes.ok) →
      env 3 = AttemptRes.fail e →
      (resilient_click_locator env 4).outcome = ClickOutcome.raised e) := by
  have hr : List.range 4 = [0, 1, 2, 3] := by decide
  rcases h0 : env 0 with _ | e0
  · have ht : resilient_click_locator env 4 = ⟨1, [], .clicked⟩ := by
      simp [resilient_click_locator, hr, clickLoop, h0]
    rw [ht]
    exact ⟨by simp, rfl, fun _ => rfl, fun hne => absurd rfl hne,
      fun e hall _ => absurd h0 (hall 0 (by omega))⟩
  · rcases h1 : env 1 with _ | e1
    · have ht : resilient_click_locator env 4 = ⟨2, [1], .clicked⟩ := by
        simp [resilient_click_locator, hr, clickLoop, h0, h1]
      rw [ht]
      exact ⟨by simp, rfl, fun _ => rfl, fun hne => absurd rfl hne,
        fun e hall _ => absurd h1 (hall 1 (by omega))⟩
    · rcases h2 : env 2 with _ | e2
      · have ht : resilient_click_locator env 4 = ⟨3, [1, 2], .clicked⟩ := by
          simp [resilient_click_locator, hr, clickLoop, h0, h1, h2]
        rw [ht]
        exact ⟨by simp, rfl, fun _ => rfl, fun hne => absurd rfl hne,
          fun e hall _ => absurd h2 (hall 2 (by omega))⟩
      · rcases h3 : env 3 with _ | e3
        · have ht : resilient_click_locator env 4 = ⟨4, [1, 2, 3], .clicked⟩ := by
            simp [resilient_click_locator, hr, clickLoop, h0, h1, h2, h3]
          rw [ht]
          exact ⟨by simp, rfl, fun _ => rfl, fun hne => absurd rfl hne,
            fun e hall _ => absurd h3 (hall 3 (by omega))⟩
        · have ht : resilient_click_locator env 4 =
              ⟨4, [1, 2, 3, 4], .raised e3⟩ := by
            simp [resilient_click_locator, hr, clickLoop, h0, h1, h2, h3]
          rw [ht]
          refine ⟨by simp, rfl, ?_, fun _ => rfl, ?_⟩
          · intro hc
            simp at hc
          · intro e _ h3e
            injection h3e with he
            rw [he]

theorem C5_click_retry_behaviour_witness :
    (resilient_click_locator (fun _ => AttemptRes.fail RetryExc.staleE)
        4).outcome = ClickOutcome.raised RetryExc.staleE :=
  (C5_click_retry_behaviour
      (fun _ => AttemptRes.fail RetryExc.staleE)).2.2.2.2
    RetryExc.staleE (fun i _ => by simp) rfl

theorem clickLoop_no_false (env : Nat → AttemptRes) :
    ∀ (l : List Nat) (le : Option RetryExc) (locs : Nat) (sl : List Nat),
      (l ≠ [] ∨ le ≠ none) →
      (clickLoop env l le locs sl).outcome = ClickOutcome.clicked ∨
      ∃ e, (clickLoop env l le locs sl).outcome = ClickOutcome.raised e := by
  intro l
  induction l with
  | nil =>
    intro le locs sl h
    rcases le with _ | e
    · rcases h with h | h
      · exact absurd rfl h
      · exact absurd rfl h
    · exact Or.inr ⟨e, rfl⟩
  | cons i rest ih =>
    intro le locs sl _
    rcases he : env i with _ | e
    · left
      simp [clickLoop, he]
    · have hrec := ih (some e) (locs + 1) (sl ++ [i + 1]) (Or.inr (by simp))
      simpa [clickLoop, he] using hrec

/-- C9: for every environment and attempt budget of at least 1, the
click-by-locator either returns True or raises the last encountered
exception; the final False return is unreachable. -/
theorem C9_false_return_unreachable (env : Nat → AttemptRes)
    (attempts : Nat) (h : 1 ≤ attempts) :
    ((resilient_click_locator env attempts).outcome =
        ClickOutcome.clicked ∨
      ∃ e, (resilient_click_locator env attempts).outcome =
        ClickOutcome.raised e) ∧
    (resilient_click_locator env attempts).outcome ≠
      ClickOutcome.returnedFalse := by
  have hne : List.range attempts ≠ [] := by
    simp only [ne_eq, List.range_eq_nil]
    omega
  have hor := clickLoop_no_false env (List.range attempts) none 0 []
    (Or.inl hne)
  refine ⟨hor, ?_⟩
  rcases hor with hc | ⟨e, hc⟩ <;> simp [resilient_click_locator, hc]

theorem C9_false_return_unreachable_witness :
    (((resilient_click_locator (fun _ => AttemptRes.ok) 1).outcome =
        ClickOutcome.clicked ∨
      ∃ e, (resilient_click_locator (fun _ => AttemptRes.ok) 1).outcome =
        ClickOutcome.raised e) ∧
    (resilient_click_locator (fun _ => AttemptRes.ok) 1).outcome ≠
      ClickOutcome.returnedFalse) :=
  C9_false_return_unreachable (fun _ => AttemptRes.ok) 1 (by omega)

/-- C6: whenever the parsed loan count is zero the renewal flow stops
immediately and returns normally: no navigation to the loans page, no
renew-all search or click, no dialog handling, and no failure dump. -/
theorem C6_zero_loans_stops (env : RenewEnv) (txt : String)
    (h1 : env.linkText = some txt) (h2 : parseLoanCount (pyStrip txt) = 0) :
    renew_loans env =
      [RenewEv.accountMenu, RenewEv.readLoansLink, RenewEv.logNoLoans] ∧
    RenewEv.navigateLoans ∉ renew_loans env ∧
    RenewEv.searchRenewAll ∉ renew_loans env ∧
    RenewEv.clickedRenewAll ∉ renew_loans env ∧
    RenewEv.dialogWait ∉ renew_loans env ∧
    RenewEv.dialogConfirm ∉ renew_loans env ∧
    (∀ tag, RenewEv.dumpCall tag ∉ renew_loans env) := by
  have ht : renew_loans env =
      [RenewEv.accountMenu, RenewEv.readLoansLink, RenewEv.logNoLoans] := by
    simp [renew_loans, h1, h2]
  rw [ht]
  exact ⟨rfl, by simp, by simp, by simp, by simp, by simp,
    fun tag => by simp⟩

theorem C6_zero_loans_stops_witness :
    renew_loans ⟨some "0", [], false⟩ =
      [RenewEv.accountMenu, RenewEv.readLoansLink, RenewEv.logNoLoans] :=
  (C6_zero_loans_stops ⟨some "0", [], false⟩ "0" rfl (by decide)).1

/-- C1 counterexample: with the account-menu control absent from the
top document and all frames, login raises the timeout and calls the
debug-dump routine with tag `login-timeout`, but the `enable` flag of the routine
flag holds its default `False`, so no screenshot or markup file is
written to the filesystem — refuting the claim that the run aborts
after writing such a dump. -/
theorem C1_login_dump_counterexample :
    (login ⟨false, true, true, true⟩).raised = some "TimeoutException" ∧
    (login ⟨false, true, true, true⟩).dumpCalls =
      [("login-timeout", false)] ∧
    (login ⟨false, true, true, true⟩).filesWritten = [] := by
  decide

/-- C1 (amended): every login failure invokes the debug-dump routine
(tag `login-timeout` for timeout conditions, `login-exception`
otherwise) before the exception is re-raised and the run aborts, but
the routine is invoked with its `enable` flag left at the default
`False`, so no screenshot or markup file is written to the
filesystem. -/
theorem C1_login_failure_dump_disabled (env : LoginEnv)
    (h : (login env).raised ≠ none) :
    (login env).dumpCalls ≠ [] ∧
    (∀ pr ∈ (login env).dumpCalls, pr.2 = false) ∧
    (login env).filesWritten = [] ∧
    (env.miCuenta = false →
      (login env).raised = some "TimeoutException" ∧
      (login env).dumpCalls = [("login-timeout", false)]) := by
  rcases env with ⟨mc, uf, pf, eo⟩
  cases mc <;> cases uf <;> cases pf <;> cases eo <;>
    simp [login, _dump_debug] at h ⊢

theorem C1_login_failure_dump_disabled_witness :
    (login ⟨false, true, true, true⟩).filesWritten = [] ∧
    (login ⟨false, true, true, true⟩).dumpCalls =
      [("login-timeout", false)] :=
  ⟨(C1_login_failure_dump_disabled ⟨false, true, true, true⟩
      (by decide)).2.2.1,
   ((C1_login_failure_dump_disabled ⟨false, true, true, true⟩
      (by decide)).2.2.2 rfl).2⟩

/-- C7: in the status report flow, a row whose due-date cell fails to
parse is logged as an error and skipped without aborting the remaining
rows; a row with no cells at all is logged as a warning and skipped;
and with no results table (zero rows) the step logs and returns with no
error and no classification. -/
theorem C7_status_row_tolerance (now : Nat) :
    check_loan_status now [] = [StatusEv.noTable] ∧
    (∀ (i : Nat) (rest : List (List String)),
      statusRows now i ([] :: rest) =
        StatusEv.warnNoCells i :: statusRows now (i + 1) rest) ∧
    (∀ (i : Nat) (cells : List String) (c2 : String)
        (rest : List (List String)),
      cells.get? 2 = some c2 → parseDue (pyStrip c2) = none →
      statusRows now i (cells :: rest) =
        StatusEv.parseError i (pyStrip c2) :: statusRows now (i + 1) rest) := by
  refine ⟨by simp [check_loan_status], ?_, ?_⟩
  · intro i rest
    simp [statusRows, rowEvents]
  · intro i cells c2 rest hg hp
    rcases cells with _ | ⟨c0, cs⟩
    · simp at hg
    · simp at hg
      simp [statusRows, rowEvents, hg, hp]

theorem C7_status_row_tolerance_witness :
    statusRows 0 1 [["t", "x", "bad"]] =
      StatusEv.parseError 1 (pyStrip "bad") :: statusRows 0 2 [] :=
  (C7_status_row_tolerance 0).2.2 1 ["t", "x", "bad"] "bad" []
    (by decide) (by decide)

/-- C8: a row with at least one but fewer than three cells makes the
third-cell read raise an index-out-of-range error caught only at the
whole-flow boundary, so all remaining rows are abandoned; per-row
skipping only covers rows with zero cells or at least three cells. -/
theorem C8_short_row_aborts_flow (now i : Nat) (cells : List String)
    (rest : List (List String)) (h1 : cells ≠ [])
    (h2 : cells.length < 3) :
    statusRows now i (cells :: rest) =
      [StatusEv.flowException "status-exception"] ∧
    check_loan_status now (cells :: rest) =
      [StatusEv.flowException "status-exception"] := by
  rcases cells with _ | ⟨c0, cs⟩
  · exact absurd rfl h1
  · have hg : (c0 :: cs).get? 2 = none := List.get?_eq_none.mpr (by omega)
    simp only [List.get?_eq_getElem?] at hg
    constructor
    · simp [statusRows, rowEvents, hg]
    · simp [check_loan_status, statusRows, rowEvents, hg]

theorem C8_short_row_aborts_flow_witness :
    statusRows 0 1 [["t"], ["a", "b", "c"]] =
      [StatusEv.flowException "status-exception"] ∧
    check_loan_status 0 [["t"], ["a", "b", "c"]] =
      [StatusEv.flowException "status-exception"] :=
  C8_short_row_aborts_flow 0 1 ["t"] [["a", "b", "c"]]
    (by decide) (by decide)
